import Mathlib

/-!
Verification development for the DocChat document Q&A application.

The application (React + Supabase) is embedded shallowly: the three database
tables (`documents`, `chat_sessions`, `chat_messages`) become lists of rows in
a `DB` state; the component handlers (`loadOrCreateSession`, `loadMessages`,
`handleSend`, `extractTextFromPDF`, `handleFileUpload`, `handleDelete`) become
pure state-passing functions. Database inserts assign fresh ids and strictly
increasing timestamps (`now`), modelling sequential `now()` defaults. Fallible
external steps (the AI endpoint call, file reading, PDF parsing, row inserts)
are passed in as `Except`/`Option`/`Bool` oracle arguments; an exception caught
by the surrounding try/catch leaves the state as it was at the throw point.
The `ORDER BY created_at` queries are modelled by insertion sorts on the row
lists. Cascade deletion follows the SQL schema: `chat_sessions.document_id`
and `chat_messages.session_id` are foreign keys with `ON DELETE CASCADE`.
-/

namespace DocChat

/-- Role of a chat message: the `role` column is constrained to
`user`/`assistant` by a CHECK constraint. -/
inductive Role where
  | user : Role
  | assistant : Role
deriving DecidableEq, Repr

/-- A row of the `documents` table. -/
structure DocumentRow where
  id : Nat
  user_id : Nat
  title : String
  content : String
  file_type : String
  file_size : Nat
  created_at : Nat
deriving DecidableEq, Repr

/-- A row of the `chat_sessions` table. -/
structure SessionRow where
  id : Nat
  user_id : Nat
  document_id : Nat
  created_at : Nat
deriving DecidableEq, Repr

/-- A row of the `chat_messages` table. -/
structure ChatMessageRow where
  id : Nat
  session_id : Nat
  role : Role
  content : String
  created_at : Nat
deriving DecidableEq, Repr

/-- The persistent store: the three tables, plus the id/timestamp source used
by inserts (`gen_random_uuid()` and `now()` defaults, made sequential). -/
structure DB where
  documents : List DocumentRow
  sessions : List SessionRow
  messages : List ChatMessageRow
  nextId : Nat
  now : Nat
deriving DecidableEq, Repr

/-- Insert a session into an ascending-by-`created_at` position of a
descending-sorted list (used to model `ORDER BY created_at DESC`). -/
def insertDesc (x : SessionRow) : List SessionRow → List SessionRow
  | [] => [x]
  | y :: ys => if y.created_at ≤ x.created_at then x :: y :: ys else y :: insertDesc x ys

/-- Sort sessions by `created_at` descending (`ORDER BY created_at DESC`). -/
def sortSessionsDesc : List SessionRow → List SessionRow
  | [] => []
  | x :: xs => insertDesc x (sortSessionsDesc xs)

/-- Insert a message into an ascending-by-`created_at` sorted list (used to
model `ORDER BY created_at ASC`). -/
def insertAsc (x : ChatMessageRow) : List ChatMessageRow → List ChatMessageRow
  | [] => [x]
  | y :: ys => if x.created_at ≤ y.created_at then x :: y :: ys else y :: insertAsc x ys

/-- Sort messages by `created_at` ascending (`ORDER BY created_at ASC`). -/
def sortMessagesAsc : List ChatMessageRow → List ChatMessageRow
  | [] => []
  | x :: xs => insertAsc x (sortMessagesAsc xs)

/-- The JavaScript string `trim()` builtin, modelled structurally: drop
whitespace characters from both ends. (Kept executable by the kernel, unlike
the library `String.trim`.) -/
def jsTrim (s : String) : String :=
  String.mk (((s.data.dropWhile Char.isWhitespace).reverse.dropWhile
    Char.isWhitespace).reverse)

/-- The `chat_sessions` rows matching
`.eq("document_id", documentId).eq("user_id", user.id)`. -/
def sessionsFor (db : DB) (userId docId : Nat) : List SessionRow :=
  db.sessions.filter (fun s => s.document_id == docId && s.user_id == userId)

/-- The session query of `loadOrCreateSession`:
`ORDER BY created_at DESC LIMIT 1` over the `(user, document)` sessions. -/
def queryLatestSession (db : DB) (userId docId : Nat) : Option SessionRow :=
  (sortSessionsDesc (sessionsFor db userId docId)).head?

/-- Handler `loadOrCreateSession` (ChatInterface.tsx): given the component
`documentId` prop and the authenticated user (if any), either reuse the most
recent session for the pair or insert exactly one new session. Returns the
updated store and the `sessionId` state that gets set (`none` on the early
returns, where the state is left unset). -/
def loadOrCreateSession (db : DB) (userOpt : Option Nat) (documentId : Option Nat) :
    DB × Option Nat :=
  match documentId with
  | none => (db, none)
  | some docId =>
    match userOpt with
    | none => (db, none)
    | some uid =>
      match queryLatestSession db uid docId with
      | some s => (db, some s.id)
      | none =>
        let newS : SessionRow :=
          { id := db.nextId, user_id := uid, document_id := docId, created_at := db.now }
        ({ db with
            sessions := db.sessions ++ [newS]
            nextId := db.nextId + 1
            now := db.now + 1 },
         some newS.id)

/-- Handler `loadMessages` (ChatInterface.tsx): the messages of a session,
`ORDER BY created_at ASC`. -/
def loadMessages (db : DB) (sessId : Nat) : List ChatMessageRow :=
  sortMessagesAsc (db.messages.filter (fun m => m.session_id == sessId))

/-- Outcome of one `handleSend` run: the store, the `messages` UI state, and
whether the AI endpoint (`supabase.functions.invoke`) was called. -/
structure SendOutcome where
  db : DB
  ui : List ChatMessageRow
  aiCalled : Bool
deriving DecidableEq, Repr

/-- Handler `handleSend` (ChatInterface.tsx). Guard: return unless the trimmed input
is nonempty, a `sessionId` is set and `documentContent` is nonempty. Then:
insert the user message (oracle `userInsertOk`), call the AI endpoint (oracle
`aiResult`), insert the assistant message (oracle `assistantInsertOk`). A
failure at any step throws; the catch block only shows a toast, so the state
reached so far is kept. -/
def handleSend (db : DB) (ui : List ChatMessageRow) (input : String)
    (sessionId : Option Nat) (documentContent : String)
    (userInsertOk : Bool) (aiResult : Except String String)
    (assistantInsertOk : Bool) : SendOutcome :=
  if jsTrim input = "" then ⟨db, ui, false⟩ else
  match sessionId with
  | none => ⟨db, ui, false⟩
  | some sid =>
    if documentContent = "" then ⟨db, ui, false⟩ else
    let userMessage := jsTrim input
    if userInsertOk = false then ⟨db, ui, false⟩ else
    let userMsg : ChatMessageRow :=
      { id := db.nextId, session_id := sid, role := Role.user
        content := userMessage, created_at := db.now }
    let db1 : DB :=
      { db with messages := db.messages ++ [userMsg]
                nextId := db.nextId + 1, now := db.now + 1 }
    let ui1 := ui ++ [userMsg]
    match aiResult with
    | Except.error _ => ⟨db1, ui1, true⟩
    | Except.ok assistantText =>
      if assistantInsertOk = false then ⟨db1, ui1, true⟩ else
      let assistantMsg : ChatMessageRow :=
        { id := db1.nextId, session_id := sid, role := Role.assistant
          content := assistantText, created_at := db1.now }
      ⟨{ db1 with messages := db1.messages ++ [assistantMsg]
                  nextId := db1.nextId + 1, now := db1.now + 1 },
       ui1 ++ [assistantMsg], true⟩

/-- Function `extractTextFromPDF` (DocumentSidebar in ChatInterface.tsx): a PDF is
modelled as its pages, each page as the list of the `str` fields of its text items.
The loop joins the items of each page with a single space, appends the page text
plus a blank line to the accumulator, and the result is trimmed. -/
def extractTextFromPDF (pages : List (List String)) : String :=
  jsTrim (pages.foldl
    (fun fullText items => fullText ++ (String.intercalate " " items ++ "\n\n")) "")

/-- An uploaded file as the handlers see it: metadata plus the outcomes of the
two fallible reads (`getDocument`/`getTextContent` for PDFs, `file.text()`
otherwise); `none` is a thrown read/parse failure. -/
structure UploadFile where
  name : String
  type : String
  size : Nat
  pdfPages : Option (List (List String))
  textContent : Option String
deriving DecidableEq, Repr

/-- Handler `handleFileUpload` (DocumentSidebar in ChatInterface.tsx): no file means
no action; a PDF goes through `extractTextFromPDF`, any other file through
`file.text()`; an unauthenticated user throws before the insert; otherwise a
`documents` row is inserted with the text as `content` (oracle `insertOk` for
the insert itself). Every thrown error is caught and only shows a toast. -/
def handleFileUpload (db : DB) (fileOpt : Option UploadFile) (userOpt : Option Nat)
    (insertOk : Bool) : DB :=
  match fileOpt with
  | none => db
  | some file =>
    let textRes : Option String :=
      if file.type = "application/pdf" then
        file.pdfPages.map extractTextFromPDF
      else
        file.textContent
    match textRes with
    | none => db
    | some text =>
      match userOpt with
      | none => db
      | some uid =>
        if insertOk = false then db else
        let doc : DocumentRow :=
          { id := db.nextId, user_id := uid, title := file.name, content := text
            file_type := file.type, file_size := file.size, created_at := db.now }
        { db with documents := db.documents ++ [doc]
                  nextId := db.nextId + 1, now := db.now + 1 }

/-- Handler `handleDelete` (DocumentSidebar in ChatInterface.tsx) together with the
schema cascades: deleting a `documents` row cascades to the `chat_sessions`
rows referencing it (`document_id ... ON DELETE CASCADE`) and from there to
the `chat_messages` rows of those sessions (`session_id ... ON DELETE
CASCADE`). -/
def handleDelete (db : DB) (docId : Nat) : DB :=
  let deletedSessionIds := (db.sessions.filter (fun s => s.document_id == docId)).map (·.id)
  { db with
      documents := db.documents.filter (fun d => !(d.id == docId))
      sessions := db.sessions.filter (fun s => !(s.document_id == docId))
      messages := db.messages.filter (fun m => !(deletedSessionIds.contains m.session_id)) }

/-! ### Lemmas about the sort routines modelling `ORDER BY` -/

theorem mem_insertDesc {y x : SessionRow} {l : List SessionRow} :
    y ∈ insertDesc x l ↔ y = x ∨ y ∈ l := by
  induction l with
  | nil => simp [insertDesc]
  | cons z zs ih =>
    by_cases h : z.created_at ≤ x.created_at
    · simp [insertDesc, h]
    · simp [insertDesc, h, ih]
      tauto

theorem mem_sortSessionsDesc {y : SessionRow} {l : List SessionRow} :
    y ∈ sortSessionsDesc l ↔ y ∈ l := by
  induction l with
  | nil => simp [sortSessionsDesc]
  | cons z zs ih => simp [sortSessionsDesc, mem_insertDesc, ih]

theorem pairwise_insertDesc {x : SessionRow} {l : List SessionRow}
    (h : l.Pairwise (fun a b => b.created_at ≤ a.created_at)) :
    (insertDesc x l).Pairwise (fun a b => b.created_at ≤ a.created_at) := by
  induction l with
  | nil => simp [insertDesc]
  | cons z zs ih =>
    rcases List.pairwise_cons.mp h with ⟨hz, hzs⟩
    by_cases hle : z.created_at ≤ x.created_at
    · simp only [insertDesc, if_pos hle]
      refine List.pairwise_cons.mpr ⟨?_, h⟩
      intro b hb
      rcases List.mem_cons.mp hb with rfl | hb
      · exact hle
      · exact le_trans (hz b hb) hle
    · simp only [insertDesc, if_neg hle]
      refine List.pairwise_cons.mpr ⟨?_, ih hzs⟩
      intro b hb
      rcases mem_insertDesc.mp hb with rfl | hb
      · exact le_of_not_le hle
      · exact hz b hb

theorem sortSessionsDesc_pairwise (l : List SessionRow) :
    (sortSessionsDesc l).Pairwise (fun a b => b.created_at ≤ a.created_at) := by
  induction l with
  | nil => simp [sortSessionsDesc]
  | cons z zs ih => exact pairwise_insertDesc ih

/-- The head of the descending sort is a maximum by `created_at`. -/
theorem head_sortSessionsDesc_max {l : List SessionRow} {s : SessionRow}
    {rest : List SessionRow} (h : sortSessionsDesc l = s :: rest) :
    ∀ t ∈ l, t.created_at ≤ s.created_at := by
  intro t ht
  have hmem : t ∈ sortSessionsDesc l := mem_sortSessionsDesc.mpr ht
  rw [h] at hmem
  rcases List.mem_cons.mp hmem with rfl | hmem
  · exact le_refl _
  · have hp := sortSessionsDesc_pairwise l
    rw [h] at hp
    exact (List.pairwise_cons.mp hp).1 t hmem

theorem mem_insertAsc {y x : ChatMessageRow} {l : List ChatMessageRow} :
    y ∈ insertAsc x l ↔ y = x ∨ y ∈ l := by
  induction l with
  | nil => simp [insertAsc]
  | cons z zs ih =>
    by_cases h : x.created_at ≤ z.created_at
    · simp [insertAsc, h]
    · simp [insertAsc, h, ih]
      tauto

theorem mem_sortMessagesAsc {y : ChatMessageRow} {l : List ChatMessageRow} :
    y ∈ sortMessagesAsc l ↔ y ∈ l := by
  induction l with
  | nil => simp [sortMessagesAsc]
  | cons z zs ih => simp [sortMessagesAsc, mem_insertAsc, ih]

theorem pairwise_insertAsc {x : ChatMessageRow} {l : List ChatMessageRow}
    (h : l.Pairwise (fun a b => a.created_at ≤ b.created_at)) :
    (insertAsc x l).Pairwise (fun a b => a.created_at ≤ b.created_at) := by
  induction l with
  | nil => simp [insertAsc]
  | cons z zs ih =>
    rcases List.pairwise_cons.mp h with ⟨hz, hzs⟩
    by_cases hle : x.created_at ≤ z.created_at
    · simp only [insertAsc, if_pos hle]
      refine List.pairwise_cons.mpr ⟨?_, h⟩
      intro b hb
      rcases List.mem_cons.mp hb with rfl | hb
      · exact hle
      · exact le_trans hle (hz b hb)
    · simp only [insertAsc, if_neg hle]
      refine List.pairwise_cons.mpr ⟨?_, ih hzs⟩
      intro b hb
      rcases mem_insertAsc.mp hb with rfl | hb
      · exact le_of_not_le hle
      · exact hz b hb

theorem sortMessagesAsc_pairwise (l : List ChatMessageRow) :
    (sortMessagesAsc l).Pairwise (fun a b => a.created_at ≤ b.created_at) := by
  induction l with
  | nil => simp [sortMessagesAsc]
  | cons z zs ih => exact pairwise_insertAsc ih

/-! ### The PDF extraction result as the specification words it -/

/-- The PDF text as the specification describes it: the concatenation of the
per-page texts, where the text of each page is its items joined by a single space
followed by a blank line, and the whole result is trimmed. To be compared
with `extractTextFromPDF`, which is translated from the source loop. -/
def pdfTextSpec (pages : List (List String)) : String :=
  jsTrim (String.join (pages.map (fun items => String.intercalate " " items ++ "\n\n")))

theorem string_join_cons (x : String) (l : List String) :
    String.join (x :: l) = x ++ String.join l := by
  apply String.ext
  simp [String.join_eq]

theorem foldl_append_eq_join (g : List String → String) :
    ∀ (l : List (List String)) (a : String),
      l.foldl (fun acc p => acc ++ g p) a = a ++ String.join (l.map g)
  | [], a => by simp [String.join]
  | p :: ps, a => by
    have ih := foldl_append_eq_join g ps (a ++ g p)
    simp only [List.foldl_cons, List.map_cons, string_join_cons]
    rw [ih, String.append_assoc]

/-! ### Claim theorems -/

/-- C3: for every PDF input, `extractTextFromPDF` returns exactly the
concatenation of per-page texts — the item strings of each page joined by a
single space, each page followed by a blank line — with the whole result
trimmed, and no other transformation applied. -/
theorem extractTextFromPDF_eq_spec (pages : List (List String)) :
    extractTextFromPDF pages = pdfTextSpec pages := by
  unfold extractTextFromPDF pdfTextSpec
  rw [foldl_append_eq_join]
  simp

/-- C4: uploading a non-PDF text file stores a document record whose
`content` field is exactly the text content of the file, with no transformation
between reading the file and inserting the record. -/
theorem handleFileUpload_content_exact (db : DB) (file : UploadFile) (uid : Nat)
    (t : String) (hty : file.type ≠ "application/pdf")
    (hread : file.textContent = some t) :
    handleFileUpload db (some file) (some uid) true
      = { db with
            documents := db.documents ++
              [{ id := db.nextId, user_id := uid, title := file.name, content := t
                 file_type := file.type, file_size := file.size
                 created_at := db.now }]
            nextId := db.nextId + 1
            now := db.now + 1 } := by
  unfold handleFileUpload
  simp [hty, hread]

/-- Witness for C4 at a concrete text file. -/
theorem handleFileUpload_content_exact_witness :
    handleFileUpload ⟨[], [], [], 0, 0⟩
        (some ⟨"a.txt", "text/plain", 5, none, some "hello"⟩) (some 7) true
      = ⟨[⟨0, 7, "a.txt", "hello", "text/plain", 5, 0⟩], [], [], 1, 1⟩ := by
  have h := handleFileUpload_content_exact ⟨[], [], [], 0, 0⟩
    ⟨"a.txt", "text/plain", 5, none, some "hello"⟩ 7 "hello" (by decide) rfl
  simpa using h

/-- C9: the handler `handleSend` is a no-op when the trimmed input is empty, when no
session id is set, or when the document content is empty: the store and the
message list are unchanged and the AI endpoint is not called. -/
theorem handleSend_noop (db : DB) (ui : List ChatMessageRow) (input : String)
    (sessionId : Option Nat) (documentContent : String) (uOk : Bool)
    (ai : Except String String) (aOk : Bool)
    (h : jsTrim input = "" ∨ sessionId = none ∨ documentContent = "") :
    handleSend db ui input sessionId documentContent uOk ai aOk
      = ⟨db, ui, false⟩ := by
  unfold handleSend
  rcases h with h | h | h
  · simp [h]
  · subst h
    by_cases hi : jsTrim input = "" <;> simp [hi]
  · subst h
    by_cases hi : jsTrim input = ""
    · simp [hi]
    · cases sessionId <;> simp [hi]

/-- Witness for C9 with an all-whitespace input. -/
theorem handleSend_noop_witness :
    handleSend ⟨[], [], [], 0, 0⟩ [] "   " (some 3) "doc" true (Except.ok "r") true
      = ⟨⟨[], [], [], 0, 0⟩, [], false⟩ :=
  handleSend_noop ⟨[], [], [], 0, 0⟩ [] "   " (some 3) "doc" true (Except.ok "r") true
    (Or.inl (by decide))

/-- C10: if PDF extraction fails, reading the file fails, or the user is not
authenticated, `handleFileUpload` inserts no document record: the store is
unchanged. -/
theorem handleFileUpload_no_insert_on_error (db : DB) (file : UploadFile)
    (userOpt : Option Nat) (insertOk : Bool)
    (h : (file.type = "application/pdf" ∧ file.pdfPages = none)
       ∨ (file.type ≠ "application/pdf" ∧ file.textContent = none)
       ∨ userOpt = none) :
    handleFileUpload db (some file) userOpt insertOk = db := by
  unfold handleFileUpload
  rcases h with ⟨hty, hp⟩ | ⟨hty, ht⟩ | h
  · simp [hty, hp]
  · simp [hty, ht]
  · subst h
    cases hres : (if file.type = "application/pdf"
        then file.pdfPages.map extractTextFromPDF else file.textContent) with
    | none => simp [hres]
    | some t => simp [hres]

/-- Witness for C10 with an unauthenticated user. -/
theorem handleFileUpload_no_insert_on_error_witness :
    handleFileUpload ⟨[], [], [], 0, 0⟩
        (some ⟨"a.txt", "text/plain", 5, none, some "hello"⟩) none true
      = ⟨[], [], [], 0, 0⟩ :=
  handleFileUpload_no_insert_on_error ⟨[], [], [], 0, 0⟩
    ⟨"a.txt", "text/plain", 5, none, some "hello"⟩ none true (Or.inr (Or.inr rfl))

/-- C2: if the AI endpoint call fails after the user message was saved, the
outcome is exactly the state after the user-message insert: the user message
is persisted, the UI shows it, and no assistant-role row is inserted. -/
theorem handleSend_ai_error (db : DB) (ui : List ChatMessageRow) (input : String)
    (sid : Nat) (documentContent : String) (e : String) (aOk : Bool)
    (hin : jsTrim input ≠ "") (hdc : documentContent ≠ "") :
    handleSend db ui input (some sid) documentContent true (Except.error e) aOk
      = ⟨{ db with
             messages := db.messages ++
               [{ id := db.nextId, session_id := sid, role := Role.user
                  content := jsTrim input, created_at := db.now }]
             nextId := db.nextId + 1
             now := db.now + 1 },
         ui ++ [{ id := db.nextId, session_id := sid, role := Role.user
                  content := jsTrim input, created_at := db.now }], true⟩ := by
  unfold handleSend
  simp [hin, hdc]

/-- Witness for C2 at a concrete failing AI call. -/
theorem handleSend_ai_error_witness :
    handleSend ⟨[], [], [], 0, 0⟩ [] "hi" (some 3) "doc" true
        (Except.error "boom") true
      = ⟨⟨[], [], [⟨0, 3, Role.user, "hi", 0⟩], 1, 1⟩,
         [⟨0, 3, Role.user, "hi", 0⟩], true⟩ := by
  have h := handleSend_ai_error ⟨[], [], [], 0, 0⟩ [] "hi" 3 "doc" "boom" true
    (by decide) (by decide)
  rw [h]
  decide

theorem not_mem_of_bnot_contains {ids : List Nat} {a : Nat}
    (h : (!ids.contains a) = true) : a ∉ ids := by
  simp at h
  exact h

/-- C6: deleting a document removes the document, every chat session
referencing it, and every chat message belonging to such a session. -/
theorem handleDelete_cascade (db : DB) (docId : Nat) :
    (∀ d ∈ (handleDelete db docId).documents, d.id ≠ docId)
    ∧ (∀ s ∈ (handleDelete db docId).sessions, s.document_id ≠ docId)
    ∧ (∀ m ∈ (handleDelete db docId).messages, ∀ s ∈ db.sessions,
        s.document_id = docId → m.session_id ≠ s.id) := by
  refine ⟨?_, ?_, ?_⟩
  · intro d hd
    have := (List.mem_filter.mp hd).2
    simpa using this
  · intro s hs
    have := (List.mem_filter.mp hs).2
    simpa using this
  · intro m hm s hs hdoc heq
    have hkeep := (List.mem_filter.mp hm).2
    have hids : s.id ∈ (db.sessions.filter
        (fun t => t.document_id == docId)).map (·.id) := by
      refine List.mem_map.mpr ⟨s, ?_, rfl⟩
      exact List.mem_filter.mpr ⟨hs, by simp [hdoc]⟩
    rw [← heq] at hids
    exact not_mem_of_bnot_contains hkeep hids

/-- C8: document content is immutable after creation: sending a message and
session creation never touch the documents table, deletion only removes whole
records, and upload either changes nothing or appends one new record, leaving
every existing record (hence its `content`) unchanged. -/
theorem documents_content_immutable (db : DB) (ui : List ChatMessageRow)
    (input : String) (sessionId : Option Nat) (documentContent : String)
    (uOk : Bool) (ai : Except String String) (aOk : Bool)
    (userOpt docIdOpt : Option Nat) (docId : Nat)
    (fileOpt : Option UploadFile) (insertOk : Bool) :
    (handleSend db ui input sessionId documentContent uOk ai aOk).db.documents
        = db.documents
    ∧ (loadOrCreateSession db userOpt docIdOpt).1.documents = db.documents
    ∧ (∀ d ∈ (handleDelete db docId).documents, d ∈ db.documents)
    ∧ (handleFileUpload db fileOpt userOpt insertOk = db
       ∨ ∃ newDoc, (handleFileUpload db fileOpt userOpt insertOk).documents
            = db.documents ++ [newDoc]) := by
  refine ⟨?_, ?_, ?_, ?_⟩
  · unfold handleSend
    repeat' split <;> try rfl
  · unfold loadOrCreateSession
    repeat' split <;> try rfl
  · intro d hd
    exact List.mem_of_mem_filter hd
  · cases fileOpt with
    | none => exact Or.inl rfl
    | some file =>
      unfold handleFileUpload
      cases hres : (if file.type = "application/pdf"
          then file.pdfPages.map extractTextFromPDF else file.textContent) with
      | none => simp [hres]
      | some t =>
        cases userOpt with
        | none => simp [hres]
        | some uid =>
          by_cases hok : insertOk = false
          · simp [hres, hok]
          · exact Or.inr ⟨{ id := db.nextId, user_id := uid, title := file.name
                            content := t, file_type := file.type
                            file_size := file.size, created_at := db.now },
              by simp [hres, hok]⟩

/-- Helper: every message row inserted by `handleSend` carries the session id
it was called with. -/
theorem handleSend_new_messages_session (db : DB) (ui : List ChatMessageRow)
    (input documentContent : String) (sid : Nat) (uOk : Bool)
    (ai : Except String String) (aOk : Bool) :
    ∀ m ∈ (handleSend db ui input (some sid) documentContent uOk ai aOk).db.messages,
      m ∉ db.messages → m.session_id = sid := by
  intro m hm hnot
  unfold handleSend at hm
  by_cases h1 : jsTrim input = ""
  · simp [h1] at hm
    exact absurd hm hnot
  by_cases h2 : documentContent = ""
  · simp [h1, h2] at hm
    exact absurd hm hnot
  by_cases h3 : uOk = false
  · simp [h1, h2, h3] at hm
    exact absurd hm hnot
  cases ai with
  | error e =>
    simp [h1, h2, h3] at hm
    rcases hm with hm | hm
    · exact absurd hm hnot
    · rw [hm]
  | ok t =>
    by_cases h4 : aOk = false
    · simp [h1, h2, h3, h4] at hm
      rcases hm with hm | hm
      · exact absurd hm hnot
      · rw [hm]
    · simp [h1, h2, h3, h4] at hm
      rcases hm with hm | hm | hm
      · exact absurd hm hnot
      · rw [hm]
      · rw [hm]

/-- C5: for a (user, document) pair, a session is created lazily only when
none exists, and then exactly one; otherwise no session is created and the
existing session with the greatest `created_at` (the `ORDER BY created_at
DESC LIMIT 1` row) is reused. -/
theorem loadOrCreateSession_lazy_unique (db : DB) (uid docId : Nat) :
    (sessionsFor db uid docId = [] →
      loadOrCreateSession db (some uid) (some docId)
        = ({ db with
              sessions := db.sessions ++
                [{ id := db.nextId, user_id := uid, document_id := docId
                   created_at := db.now }]
              nextId := db.nextId + 1
              now := db.now + 1 }, some db.nextId))
    ∧ (sessionsFor db uid docId ≠ [] →
      ∃ s ∈ sessionsFor db uid docId,
        loadOrCreateSession db (some uid) (some docId) = (db, some s.id)
        ∧ ∀ t ∈ sessionsFor db uid docId, t.created_at ≤ s.created_at) := by
  constructor
  · intro hemp
    simp only [loadOrCreateSession, queryLatestSession, hemp]
    rfl
  · intro hne
    obtain ⟨x, hx⟩ := List.exists_mem_of_ne_nil _ hne
    cases hsort : sortSessionsDesc (sessionsFor db uid docId) with
    | nil =>
      exfalso
      have hxs : x ∈ sortSessionsDesc (sessionsFor db uid docId) :=
        mem_sortSessionsDesc.mpr hx
      rw [hsort] at hxs
      simp at hxs
    | cons s rest =>
      refine ⟨s, ?_, ?_, ?_⟩
      · exact mem_sortSessionsDesc.mp (by rw [hsort]; exact List.mem_cons_self s rest)
      · simp only [loadOrCreateSession, queryLatestSession, hsort]
        rfl
      · exact head_sortSessionsDesc_max hsort

/-- Witness for C5 at a store holding two sessions for the pair. -/
theorem loadOrCreateSession_lazy_unique_witness :
    ∃ s ∈ sessionsFor ⟨[], [⟨1, 7, 5, 0⟩, ⟨2, 7, 5, 3⟩], [], 10, 10⟩ 7 5,
      loadOrCreateSession ⟨[], [⟨1, 7, 5, 0⟩, ⟨2, 7, 5, 3⟩], [], 10, 10⟩
          (some 7) (some 5)
        = (⟨[], [⟨1, 7, 5, 0⟩, ⟨2, 7, 5, 3⟩], [], 10, 10⟩, some s.id)
      ∧ ∀ t ∈ sessionsFor ⟨[], [⟨1, 7, 5, 0⟩, ⟨2, 7, 5, 3⟩], [], 10, 10⟩ 7 5,
          t.created_at ≤ s.created_at :=
  (loadOrCreateSession_lazy_unique ⟨[], [⟨1, 7, 5, 0⟩, ⟨2, 7, 5, 3⟩], [], 10, 10⟩
    7 5).2 (by decide)

/-- C1: when no session exists for the (user, document) pair, the interaction
flow first has `loadOrCreateSession` create exactly one new session, and only
then can `handleSend` store rows; every message row it inserts belongs to the
session created for the pair, which already exists in the store. -/
theorem send_flow_session_before_message (db : DB) (uid docId : Nat)
    (ui : List ChatMessageRow) (input documentContent : String)
    (uOk : Bool) (ai : Except String String) (aOk : Bool)
    (hemp : sessionsFor db uid docId = []) :
    ∃ (db1 : DB) (sid : Nat),
      loadOrCreateSession db (some uid) (some docId) = (db1, some sid)
      ∧ db1.sessions.length = db.sessions.length + 1
      ∧ (sessionsFor db1 uid docId).length = 1
      ∧ (∃ s ∈ sessionsFor db1 uid docId, s.id = sid)
      ∧ ∀ m ∈ (handleSend db1 ui input (some sid) documentContent
            uOk ai aOk).db.messages,
          m ∉ db1.messages → m.session_id = sid := by
  have hcreate := (loadOrCreateSession_lazy_unique db uid docId).1 hemp
  refine ⟨_, db.nextId, hcreate, by simp, ?_, ?_, ?_⟩
  · show (sessionsFor
      { db with
          sessions := db.sessions ++
            [{ id := db.nextId, user_id := uid, document_id := docId
               created_at := db.now }]
          nextId := db.nextId + 1
          now := db.now + 1 } uid docId).length = 1
    unfold sessionsFor at hemp ⊢
    simp only [List.filter_append, hemp]
    simp
  · refine ⟨{ id := db.nextId, user_id := uid, document_id := docId
              created_at := db.now }, ?_, rfl⟩
    unfold sessionsFor
    simp
  · exact handleSend_new_messages_session _ ui input documentContent db.nextId uOk ai aOk

/-- Witness for C1 at an empty store. -/
theorem send_flow_session_before_message_witness :
    ∃ (db1 : DB) (sid : Nat),
      loadOrCreateSession ⟨[], [], [], 0, 0⟩ (some 7) (some 5) = (db1, some sid)
      ∧ db1.sessions.length = ([] : List SessionRow).length + 1
      ∧ (sessionsFor db1 7 5).length = 1
      ∧ (∃ s ∈ sessionsFor db1 7 5, s.id = sid)
      ∧ ∀ m ∈ (handleSend db1 [] "hi" (some sid) "doc" true
            (Except.ok "answer") true).db.messages,
          m ∉ db1.messages → m.session_id = sid :=
  send_flow_session_before_message ⟨[], [], [], 0, 0⟩ 7 5 [] "hi" "doc" true
    (Except.ok "answer") true (by decide)

/-- C7: chat messages are append-only — `handleSend` only ever appends to the
stored rows, and session loading and file upload never touch them — and two
messages of the same session are retrieved by `loadMessages` in ascending
creation-time order. -/
theorem chat_messages_append_only_ordered (db : DB) (ui : List ChatMessageRow)
    (input documentContent : String) (sessionId : Option Nat) (uOk : Bool)
    (ai : Except String String) (aOk : Bool) (userOpt docIdOpt : Option Nat)
    (fileOpt : Option UploadFile) (insertOk : Bool) (sid : Nat)
    (m1 m2 : ChatMessageRow)
    (h1 : m1 ∈ db.messages) (h2 : m2 ∈ db.messages)
    (hs1 : m1.session_id = sid) (hs2 : m2.session_id = sid)
    (hlt : m1.created_at < m2.created_at) :
    (∃ t, (handleSend db ui input sessionId documentContent uOk ai aOk).db.messages
        = db.messages ++ t)
    ∧ (loadOrCreateSession db userOpt docIdOpt).1.messages = db.messages
    ∧ (handleFileUpload db fileOpt userOpt insertOk).messages = db.messages
    ∧ ∃ (i j : Nat) (hi : i < (loadMessages db sid).length)
        (hj : j < (loadMessages db sid).length),
        i < j ∧ (loadMessages db sid).get ⟨i, hi⟩ = m1
          ∧ (loadMessages db sid).get ⟨j, hj⟩ = m2 := by
  refine ⟨?_, ?_, ?_, ?_⟩
  · unfold handleSend
    by_cases g1 : jsTrim input = ""
    · exact ⟨[], by simp [g1]⟩
    cases sessionId with
    | none => exact ⟨[], by simp [g1]⟩
    | some s =>
      by_cases g2 : documentContent = ""
      · exact ⟨[], by simp [g1, g2]⟩
      by_cases g3 : uOk = false
      · exact ⟨[], by simp [g1, g2, g3]⟩
      cases ai with
      | error e =>
        exact ⟨[{ id := db.nextId, session_id := s, role := Role.user
                  content := jsTrim input, created_at := db.now }],
          by simp [g1, g2, g3]⟩
      | ok t =>
        by_cases g4 : aOk = false
        · exact ⟨[{ id := db.nextId, session_id := s, role := Role.user
                    content := jsTrim input, created_at := db.now }],
            by simp [g1, g2, g3, g4]⟩
        · exact ⟨[{ id := db.nextId, session_id := s, role := Role.user
                    content := jsTrim input, created_at := db.now },
                  { id := db.nextId + 1, session_id := s, role := Role.assistant
                    content := t, created_at := db.now + 1 }],
            by simp [g1, g2, g3, g4]⟩
  · unfold loadOrCreateSession
    repeat' split <;> try rfl
  · cases fileOpt with
    | none => rfl
    | some file =>
      unfold handleFileUpload
      cases hres : (if file.type = "application/pdf"
          then file.pdfPages.map extractTextFromPDF else file.textContent) with
      | none => simp [hres]
      | some t =>
        cases userOpt with
        | none => simp [hres]
        | some uid =>
          by_cases hok : insertOk = false <;> simp [hres, hok]
  · have hm1 : m1 ∈ loadMessages db sid := by
      unfold loadMessages
      exact mem_sortMessagesAsc.mpr (List.mem_filter.mpr ⟨h1, by simp [hs1]⟩)
    have hm2 : m2 ∈ loadMessages db sid := by
      unfold loadMessages
      exact mem_sortMessagesAsc.mpr (List.mem_filter.mpr ⟨h2, by simp [hs2]⟩)
    obtain ⟨i, hi⟩ := List.mem_iff_get.mp hm1
    obtain ⟨j, hj⟩ := List.mem_iff_get.mp hm2
    have hpair : (loadMessages db sid).Pairwise
        (fun a b => a.created_at ≤ b.created_at) := sortMessagesAsc_pairwise _
    have hij : (i : Nat) < (j : Nat) := by
      rcases lt_trichotomy (i : Nat) (j : Nat) with h | h | h
      · exact h
      · exfalso
        have : i = j := Fin.ext h
        rw [this, hj] at hi
        rw [hi] at hlt
        exact lt_irrefl _ hlt
      · exfalso
        have hle := List.pairwise_iff_get.mp hpair j i h
        rw [hi, hj] at hle
        exact absurd hlt (not_lt.mpr hle)
    exact ⟨i, j, i.isLt, j.isLt, hij, hi, hj⟩

/-- Witness for C7 at a store holding two messages of the same session. -/
theorem chat_messages_append_only_ordered_witness :
    (∃ t, (handleSend ⟨[], [],
        [⟨0, 1, Role.user, "q", 0⟩, ⟨1, 1, Role.assistant, "a", 1⟩], 2, 2⟩
        [] "hi" (some 1) "doc" true (Except.ok "r") true).db.messages
        = [⟨0, 1, Role.user, "q", 0⟩, ⟨1, 1, Role.assistant, "a", 1⟩] ++ t)
    ∧ (loadOrCreateSession ⟨[], [],
        [⟨0, 1, Role.user, "q", 0⟩, ⟨1, 1, Role.assistant, "a", 1⟩], 2, 2⟩
        (some 7) (some 5)).1.messages
        = [⟨0, 1, Role.user, "q", 0⟩, ⟨1, 1, Role.assistant, "a", 1⟩]
    ∧ (handleFileUpload ⟨[], [],
        [⟨0, 1, Role.user, "q", 0⟩, ⟨1, 1, Role.assistant, "a", 1⟩], 2, 2⟩
        none (some 7) true).messages
        = [⟨0, 1, Role.user, "q", 0⟩, ⟨1, 1, Role.assistant, "a", 1⟩]
    ∧ ∃ (i j : Nat) (hi : i < (loadMessages ⟨[], [],
          [⟨0, 1, Role.user, "q", 0⟩, ⟨1, 1, Role.assistant, "a", 1⟩], 2, 2⟩
          1).length)
        (hj : j < (loadMessages ⟨[], [],
          [⟨0, 1, Role.user, "q", 0⟩, ⟨1, 1, Role.assistant, "a", 1⟩], 2, 2⟩
          1).length),
        i < j ∧ (loadMessages ⟨[], [],
          [⟨0, 1, Role.user, "q", 0⟩, ⟨1, 1, Role.assistant, "a", 1⟩], 2, 2⟩
          1).get ⟨i, hi⟩ = ⟨0, 1, Role.user, "q", 0⟩
          ∧ (loadMessages ⟨[], [],
          [⟨0, 1, Role.user, "q", 0⟩, ⟨1, 1, Role.assistant, "a", 1⟩], 2, 2⟩
          1).get ⟨j, hj⟩ = ⟨1, 1, Role.assistant, "a", 1⟩ :=
  chat_messages_append_only_ordered
    ⟨[], [], [⟨0, 1, Role.user, "q", 0⟩, ⟨1, 1, Role.assistant, "a", 1⟩], 2, 2⟩
    [] "hi" "doc" (some 1) true (Except.ok "r") true (some 7) (some 5) none true 1
    ⟨0, 1, Role.user, "q", 0⟩ ⟨1, 1, Role.assistant, "a", 1⟩
    (by simp) (by simp) rfl rfl (by decide)

/-- Witness for C6 at a store with one document, one session and one message. -/
theorem handleDelete_cascade_witness :
    (∀ d ∈ (handleDelete ⟨[⟨5, 7, "t", "c", "text/plain", 1, 0⟩],
        [⟨1, 7, 5, 1⟩], [⟨2, 1, Role.user, "q", 2⟩], 3, 3⟩ 5).documents, d.id ≠ 5)
    ∧ (∀ s ∈ (handleDelete ⟨[⟨5, 7, "t", "c", "text/plain", 1, 0⟩],
        [⟨1, 7, 5, 1⟩], [⟨2, 1, Role.user, "q", 2⟩], 3, 3⟩ 5).sessions,
        s.document_id ≠ 5)
    ∧ (∀ m ∈ (handleDelete ⟨[⟨5, 7, "t", "c", "text/plain", 1, 0⟩],
        [⟨1, 7, 5, 1⟩], [⟨2, 1, Role.user, "q", 2⟩], 3, 3⟩ 5).messages,
        ∀ s ∈ [(⟨1, 7, 5, 1⟩ : SessionRow)], s.document_id = 5
          → m.session_id ≠ s.id) :=
  handleDelete_cascade ⟨[⟨5, 7, "t", "c", "text/plain", 1, 0⟩],
    [⟨1, 7, 5, 1⟩], [⟨2, 1, Role.user, "q", 2⟩], 3, 3⟩ 5

/-- Witness for C8 at a store with one document. -/
theorem documents_content_immutable_witness :
    (handleSend ⟨[⟨5, 7, "t", "c", "text/plain", 1, 0⟩], [], [], 1, 1⟩ [] "hi"
        (some 1) "doc" true (Except.ok "r") true).db.documents
        = [⟨5, 7, "t", "c", "text/plain", 1, 0⟩]
    ∧ (loadOrCreateSession ⟨[⟨5, 7, "t", "c", "text/plain", 1, 0⟩], [], [], 1, 1⟩
        (some 7) (some 5)).1.documents = [⟨5, 7, "t", "c", "text/plain", 1, 0⟩]
    ∧ (∀ d ∈ (handleDelete ⟨[⟨5, 7, "t", "c", "text/plain", 1, 0⟩], [], [], 1, 1⟩
        5).documents, d ∈ [(⟨5, 7, "t", "c", "text/plain", 1, 0⟩ : DocumentRow)])
    ∧ (handleFileUpload ⟨[⟨5, 7, "t", "c", "text/plain", 1, 0⟩], [], [], 1, 1⟩
        none (some 7) true = ⟨[⟨5, 7, "t", "c", "text/plain", 1, 0⟩], [], [], 1, 1⟩
       ∨ ∃ newDoc, (handleFileUpload ⟨[⟨5, 7, "t", "c", "text/plain", 1, 0⟩],
            [], [], 1, 1⟩ none (some 7) true).documents
            = [⟨5, 7, "t", "c", "text/plain", 1, 0⟩] ++ [newDoc]) :=
  documents_content_immutable ⟨[⟨5, 7, "t", "c", "text/plain", 1, 0⟩], [], [], 1, 1⟩
    [] "hi" (some 1) "doc" true (Except.ok "r") true (some 7) (some 5) 5 none true

end DocChat
